import Mathlib

/-!
Shallow embedding of `src/cliToolsBC.py`: a task-management CLI backed by a
SQLite database (`tasks` table plus `tasks_history` audit table) whose
history capture is done by three SQL triggers (`setup_triggers`).

Embedding conventions:
* the two tables become Lean lists of rows, kept in insertion (rowid) order;
* the trigger bodies are inlined at every mutating SQL statement, one
  history row per affected task row, exactly as SQLite fires row triggers;
* `CURRENT_TIMESTAMP` becomes a logical clock carried in the state and
  advanced at every committed transaction, so timestamps are strictly
  increasing across operations (one transaction = one timestamp);
* `INTEGER PRIMARY KEY` id assignment (`cursor.lastrowid`) becomes
  largest-existing-id-plus-one, which is SQLite's rowid allocation rule;
* `history_id INTEGER PRIMARY KEY` likewise becomes largest-plus-one over
  the history table (history rows are never deleted, so this is a counter).
-/

namespace CliToolsBC

/-- A row of the `tasks` table; timestamps are logical clock values. -/
structure Task where
  id : Nat
  title : String
  description : String
  status : String
  priority : String
  created_at : Nat
  updated_at : Nat
deriving DecidableEq

/-- A row of the `tasks_history` table. -/
structure HistoryRecord where
  history_id : Nat
  task_id : Nat
  title : String
  description : String
  status : String
  priority : String
  operation : String
  changed_at : Nat
deriving DecidableEq

/-- The database state: both tables in rowid (insertion) order, plus the
logical clock standing in for `CURRENT_TIMESTAMP`. -/
structure DB where
  tasks : List Task
  history : List HistoryRecord
  clock : Nat
deriving DecidableEq

/-- The freshly initialized database (`create_database` + `setup_triggers`):
both tables empty. -/
def initDB : DB := { tasks := [], history := [], clock := 0 }

/-- Largest element of a list of naturals, 0 if empty. -/
def maxNat (l : List Nat) : Nat := l.foldr max 0

/-- SQLite rowid allocation for the `tasks` table: one more than the largest
current id (1 on an empty table). -/
def newTaskId (db : DB) : Nat := maxNat (db.tasks.map Task.id) + 1

/-- SQLite rowid allocation for the `tasks_history` table. -/
def newHistoryId (db : DB) : Nat := maxNat (db.history.map HistoryRecord.history_id) + 1

/-- The history row a trigger inserts for task row `tk`: a full snapshot of
the row's mutable fields plus the operation tag and timestamp
(`tasks_insert_trigger` / `tasks_update_trigger` / `tasks_delete_trigger`). -/
def snapshotRecord (hid : Nat) (op : String) (t : Nat) (tk : Task) : HistoryRecord :=
  { history_id := hid, task_id := tk.id, title := tk.title,
    description := tk.description, status := tk.status, priority := tk.priority,
    operation := op, changed_at := t }

/-- History rows fired by a statement that touched the given task rows, in
order, with consecutively allocated history ids starting at `hid`. -/
def snapshotRecords (hid : Nat) (op : String) (t : Nat) : List Task → List HistoryRecord
  | [] => []
  | tk :: rest => snapshotRecord hid op t tk :: snapshotRecords (hid + 1) op t rest

/-- `add_task`: INSERT the new row (id generated, `created_at` from the
column default, `updated_at` set to `CURRENT_TIMESTAMP`), which fires
`tasks_insert_trigger`; returns the new task id. No validation is done. -/
def add_task (db : DB) (title description status priority : String) : Nat × DB :=
  let t := db.clock
  let tid := newTaskId db
  let tk : Task := { id := tid, title := title, description := description,
                     status := status, priority := priority,
                     created_at := t, updated_at := t }
  (tid, { tasks := db.tasks ++ [tk],
          history := db.history ++ [snapshotRecord (newHistoryId db) "INSERT" t tk],
          clock := db.clock + 1 })

/-- Apply the optionally supplied fields of `update_task` to one task row,
always refreshing `updated_at` (the `updated_at = CURRENT_TIMESTAMP` part of
the built query). -/
def applyUpdate (title description status priority : Option String) (t : Nat) (tk : Task) : Task :=
  { tk with
    title := title.getD tk.title,
    description := description.getD tk.description,
    status := status.getD tk.status,
    priority := priority.getD tk.priority,
    updated_at := t }

/-- `update_task`: checks existence (`SELECT id FROM tasks WHERE id = ?`),
then rejects an empty field set, then runs
`UPDATE tasks SET ... WHERE id = ?`, which fires `tasks_update_trigger`
once per affected row with the NEW (post-update) values. Returns the
Python function's boolean result paired with the resulting state. -/
def update_task (db : DB) (task_id : Nat)
    (title description status priority : Option String) : Bool × DB :=
  if (db.tasks.find? fun tk => tk.id == task_id).isNone then (false, db)
  else if title.isNone && description.isNone && status.isNone && priority.isNone then
    (false, db)
  else
    let t := db.clock
    let newTasks := db.tasks.map fun tk =>
      if tk.id == task_id then applyUpdate title description status priority t tk else tk
    let changedRows := newTasks.filter fun tk => tk.id == task_id
    (true, { tasks := newTasks,
             history := db.history ++ snapshotRecords (newHistoryId db) "UPDATE" t changedRows,
             clock := db.clock + 1 })

/-- `complete_task`: sugar for `update_task` supplying only `status='completed'`. -/
def complete_task (db : DB) (task_id : Nat) : Bool × DB :=
  update_task db task_id none none (some "completed") none

/-- `delete_task`: checks existence, then `DELETE FROM tasks WHERE id = ?`,
which fires `tasks_delete_trigger` once per deleted row with the OLD values. -/
def delete_task (db : DB) (task_id : Nat) : Bool × DB :=
  if (db.tasks.find? fun tk => tk.id == task_id).isNone then (false, db)
  else
    let t := db.clock
    let victims := db.tasks.filter fun tk => tk.id == task_id
    (true, { tasks := db.tasks.filter fun tk => tk.id != task_id,
             history := db.history ++ snapshotRecords (newHistoryId db) "DELETE" t victims,
             clock := db.clock + 1 })

/-- `list_tasks`: `SELECT ... [WHERE status = ?] ORDER BY id ASC`; a Python
falsy (absent or empty) filter lists everything. Read-only. -/
def list_tasks (db : DB) (filter_status : Option String) : List Task :=
  let rows := match filter_status with
    | none => db.tasks
    | some s => if s = "" then db.tasks else db.tasks.filter fun tk => tk.status == s
  List.insertionSort (fun a b => a.id ≤ b.id) rows

/-- `get_task_history`: `SELECT ... FROM tasks_history WHERE task_id = ?
ORDER BY changed_at ASC`. Read-only. -/
def get_task_history (db : DB) (task_id : Nat) : List HistoryRecord :=
  List.insertionSort (fun a b => a.changed_at ≤ b.changed_at)
    (db.history.filter fun r => r.task_id == task_id)

/-- The row re-inserted by `restore_task_version` when the task is gone:
the snapshot fields under the original explicit id, both timestamps from
`CURRENT_TIMESTAMP` (`created_at` via the column default). -/
def restoredTask (r : HistoryRecord) (t : Nat) : Task :=
  { id := r.task_id, title := r.title, description := r.description,
    status := r.status, priority := r.priority, created_at := t, updated_at := t }

/-- One task row as overwritten by `restore_task_version`'s UPDATE branch:
snapshot fields, fresh `updated_at`, `created_at` untouched. -/
def restoreOverwrite (r : HistoryRecord) (t : Nat) (tk : Task) : Task :=
  { id := tk.id, title := r.title, description := r.description,
    status := r.status, priority := r.priority,
    created_at := tk.created_at, updated_at := t }

/-- `restore_task_version`: look the record up by `history_id`; if its task
is gone, re-INSERT it under its original id (firing `tasks_insert_trigger`);
otherwise UPDATE the live row to the snapshot (firing
`tasks_update_trigger`). -/
def restore_task_version (db : DB) (history_id : Nat) : Bool × DB :=
  match db.history.find? fun r => r.history_id == history_id with
  | none => (false, db)
  | some r =>
    let t := db.clock
    if (db.tasks.find? fun tk => tk.id == r.task_id).isNone then
      let tk := restoredTask r t
      (true, { tasks := db.tasks ++ [tk],
               history := db.history ++ [snapshotRecord (newHistoryId db) "INSERT" t tk],
               clock := db.clock + 1 })
    else
      let newTasks := db.tasks.map fun tk =>
        if tk.id == r.task_id then restoreOverwrite r t tk else tk
      let changedRows := newTasks.filter fun tk => tk.id == r.task_id
      (true, { tasks := newTasks,
               history := db.history ++ snapshotRecords (newHistoryId db) "UPDATE" t changedRows,
               clock := db.clock + 1 })

/-- The operations the presentation layer can invoke on the core. -/
inductive Op where
  | create (title description status priority : String)
  | update (task_id : Nat) (title description status priority : Option String)
  | complete (task_id : Nat)
  | delete (task_id : Nat)
  | restore (history_id : Nat)
  | listTasks (filter_status : Option String)
  | historyOf (task_id : Nat)
deriving DecidableEq

/-- State transition of one operation (reads leave the state unchanged). -/
def applyOp (db : DB) : Op → DB
  | .create title description status priority => (add_task db title description status priority).2
  | .update task_id title description status priority =>
      (update_task db task_id title description status priority).2
  | .complete task_id => (complete_task db task_id).2
  | .delete task_id => (delete_task db task_id).2
  | .restore history_id => (restore_task_version db history_id).2
  | .listTasks _ => db
  | .historyOf _ => db

/-- The database reached by running a sequence of operations from a fresh
initialization. -/
def run (ops : List Op) : DB := ops.foldl applyOp initDB

/-! ## Structural invariants of reachable states -/

/-- The ids of the live task rows are pairwise distinct (the
`id INTEGER PRIMARY KEY` constraint on `tasks`). -/
def TaskIdsNodup (db : DB) : Prop := (db.tasks.map Task.id).Nodup

/-- History ids strictly increase along the history table, so append order
is id order. -/
def HistIdsIncr (db : DB) : Prop :=
  db.history.Pairwise fun a b => a.history_id < b.history_id

/-- Timestamps are non-decreasing along the history table. -/
def ChangedMono (db : DB) : Prop :=
  db.history.Pairwise fun a b => a.changed_at ≤ b.changed_at

/-- Every logged timestamp lies strictly before the current clock. -/
def ClockAhead (db : DB) : Prop := ∀ r ∈ db.history, r.changed_at < db.clock

/-- Every live task row agrees, on all four mutable fields, with the history
record of greatest `history_id` among those carrying its `task_id`, and that
record is not a DELETE. -/
def StoreMatchesLog (db : DB) : Prop :=
  ∀ tk ∈ db.tasks, ∃ r ∈ db.history,
    r.task_id = tk.id ∧ r.operation ≠ "DELETE" ∧
    r.title = tk.title ∧ r.description = tk.description ∧
    r.status = tk.status ∧ r.priority = tk.priority ∧
    ∀ r2 ∈ db.history, r2.task_id = tk.id → r2.history_id ≤ r.history_id

/-- All structural invariants together. -/
def Inv (db : DB) : Prop :=
  TaskIdsNodup db ∧ HistIdsIncr db ∧ ChangedMono db ∧ ClockAhead db ∧ StoreMatchesLog db

/-! ## Basic helper lemmas -/

theorem le_maxNat {a : Nat} : ∀ {l : List Nat}, a ∈ l → a ≤ maxNat l
  | b :: l, h => by
    rcases List.mem_cons.mp h with rfl | h
    · exact le_max_left _ _
    · exact le_trans (le_maxNat h) (le_max_right _ _)

theorem task_id_lt_newTaskId {db : DB} {tk : Task} (h : tk ∈ db.tasks) :
    tk.id < newTaskId db :=
  Nat.lt_succ_of_le (le_maxNat (List.mem_map_of_mem Task.id h))

theorem hist_id_lt_newHistoryId {db : DB} {r : HistoryRecord} (h : r ∈ db.history) :
    r.history_id < newHistoryId db :=
  Nat.lt_succ_of_le (le_maxNat (List.mem_map_of_mem HistoryRecord.history_id h))

theorem find?_isNone_false {α} (p : α → Bool) {l : List α} {x : α}
    (hx : x ∈ l) (hp : p x = true) : (l.find? p).isNone = false := by
  cases h : l.find? p with
  | none => exact absurd hp (by simpa using List.find?_eq_none.mp h x hx)
  | some z => rfl

theorem pairwise_append_single {α} {R : α → α → Prop} {l : List α}
    (h : l.Pairwise R) {a : α} (ha : ∀ x ∈ l, R x a) : (l ++ [a]).Pairwise R :=
  List.pairwise_append.mpr
    ⟨h, List.pairwise_singleton R a,
     fun x hx _b hb => (List.mem_singleton.mp hb) ▸ ha x hx⟩

theorem eq_of_mem_id {l : List Task} (hn : (l.map Task.id).Nodup)
    {a b : Task} (ha : a ∈ l) (hb : b ∈ l) (h : a.id = b.id) : a = b :=
  List.inj_on_of_nodup_map hn ha hb h

theorem filter_id_eq_nil {l : List Task} {x : Nat}
    (h : ∀ tk ∈ l, tk.id ≠ x) : (l.filter fun tk => tk.id == x) = [] :=
  List.filter_eq_nil_iff.mpr fun tk htk => by simpa using h tk htk

theorem filter_id_unique : ∀ {l : List Task}, (l.map Task.id).Nodup →
    ∀ {tk : Task}, tk ∈ l → ∀ {x : Nat}, tk.id = x →
    (l.filter fun y => y.id == x) = [tk]
  | a :: l, hn, tk, htk, x, hx => by
    rw [List.map_cons, List.nodup_cons] at hn
    rcases List.mem_cons.mp htk with rfl | htk
    · rw [List.filter_cons_of_pos (by simpa using hx),
        filter_id_eq_nil fun y hy heq =>
          hn.1 (by rw [hx, ← heq]; exact List.mem_map_of_mem Task.id hy)]
    · have hne : ¬ a.id = x := fun h =>
        hn.1 (by rw [h, ← hx]; exact List.mem_map_of_mem Task.id htk)
      rw [List.filter_cons_of_neg (by simpa using hne)]
      exact filter_id_unique hn.2 htk hx

theorem map_ite_id (l : List Task) (x : Nat) (f : Task → Task)
    (hf : ∀ y, (f y).id = y.id) :
    ((l.map fun y => if y.id == x then f y else y).map Task.id) = l.map Task.id := by
  rw [List.map_map]
  refine List.map_congr_left fun y _ => ?_
  by_cases h : y.id = x <;> simp [h, hf]

theorem filter_map_ite {l : List Task} {x : Nat} (f : Task → Task)
    (hf : ∀ y, (f y).id = y.id) (hn : (l.map Task.id).Nodup)
    {tk : Task} (htk : tk ∈ l) (hx : tk.id = x) :
    ((l.map fun y => if y.id == x then f y else y).filter fun y => y.id == x)
      = [f tk] := by
  have hmem : f tk ∈ l.map fun y => if y.id == x then f y else y := by
    have : (if tk.id == x then f tk else tk) = f tk := by simp [hx]
    exact this ▸ List.mem_map_of_mem _ htk
  exact filter_id_unique ((map_ite_id l x f hf).symm ▸ hn) hmem ((hf tk).trans hx)

/-! ## Step lemmas: explicit transitions -/

theorem update_task_notfound (db : DB) (task_id : Nat)
    (title description status priority : Option String)
    (h : (db.tasks.find? fun y => y.id == task_id) = none) :
    update_task db task_id title description status priority = (false, db) := by
  simp [update_task, h]

theorem update_task_noop (db : DB) (task_id : Nat) :
    update_task db task_id none none none none = (false, db) := by
  simp [update_task]

theorem update_task_step (db : DB) (task_id : Nat)
    (title description status priority : Option String)
    (hn : TaskIdsNodup db) {tk : Task} (htk : tk ∈ db.tasks) (hid : tk.id = task_id)
    (hfield : (title.isNone && description.isNone && status.isNone && priority.isNone)
      = false) :
    update_task db task_id title description status priority =
      (true,
       { tasks := db.tasks.map fun y =>
           if y.id == task_id then applyUpdate title description status priority db.clock y
           else y,
         history := db.history ++
           [snapshotRecord (newHistoryId db) "UPDATE" db.clock
             (applyUpdate title description status priority db.clock tk)],
         clock := db.clock + 1 }) := by
  have h1 := find?_isNone_false (fun y => y.id == task_id) htk (by simpa using hid)
  have h2 := filter_map_ite (applyUpdate title description status priority db.clock)
    (fun y => rfl) hn htk hid
  simp only [update_task, h1, hfield, Bool.false_eq_true, if_false, h2]
  rfl

theorem delete_task_notfound (db : DB) (task_id : Nat)
    (h : (db.tasks.find? fun y => y.id == task_id) = none) :
    delete_task db task_id = (false, db) := by
  simp [delete_task, h]

theorem delete_task_step (db : DB) (task_id : Nat) (hn : TaskIdsNodup db)
    {tk : Task} (htk : tk ∈ db.tasks) (hid : tk.id = task_id) :
    delete_task db task_id =
      (true, { tasks := db.tasks.filter fun y => y.id != task_id,
               history := db.history ++
                 [snapshotRecord (newHistoryId db) "DELETE" db.clock tk],
               clock := db.clock + 1 }) := by
  have h1 := find?_isNone_false (fun y => y.id == task_id) htk (by simpa using hid)
  have h2 := filter_id_unique hn htk hid
  simp only [delete_task, h1, Bool.false_eq_true, if_false, h2]
  rfl

theorem restore_notfound (db : DB) (history_id : Nat)
    (h : (db.history.find? fun s => s.history_id == history_id) = none) :
    restore_task_version db history_id = (false, db) := by
  unfold restore_task_version
  rw [h]

theorem restore_absent_step (db : DB) (history_id : Nat) {r : HistoryRecord}
    (hfind : (db.history.find? fun s => s.history_id == history_id) = some r)
    (habs : (db.tasks.find? fun y => y.id == r.task_id) = none) :
    restore_task_version db history_id =
      (true, { tasks := db.tasks ++ [restoredTask r db.clock],
               history := db.history ++
                 [snapshotRecord (newHistoryId db) "INSERT" db.clock
                   (restoredTask r db.clock)],
               clock := db.clock + 1 }) := by
  unfold restore_task_version
  rw [hfind]
  simp [habs]

theorem restore_present_step (db : DB) (history_id : Nat) {r : HistoryRecord}
    (hfind : (db.history.find? fun s => s.history_id == history_id) = some r)
    (hn : TaskIdsNodup db) {tk : Task} (htk : tk ∈ db.tasks) (hid : tk.id = r.task_id) :
    restore_task_version db history_id =
      (true, { tasks := db.tasks.map fun y =>
                 if y.id == r.task_id then restoreOverwrite r db.clock y else y,
               history := db.history ++
                 [snapshotRecord (newHistoryId db) "UPDATE" db.clock
                   (restoreOverwrite r db.clock tk)],
               clock := db.clock + 1 }) := by
  have h1 := find?_isNone_false (fun y => y.id == r.task_id) htk (by simpa using hid)
  have h2 := filter_map_ite (restoreOverwrite r db.clock) (fun y => rfl) hn htk hid
  unfold restore_task_version
  rw [hfind]
  simp only [h1, Bool.false_eq_true, if_false, h2]
  rfl

/-! ## Invariant preservation -/

theorem hist_invs_append (db : DB) (tasks2 : List Task) (op : String) (tk : Task)
    (c : Nat) (hc : db.clock < c)
    (h2 : HistIdsIncr db) (h3 : ChangedMono db) (h4 : ClockAhead db) :
    HistIdsIncr ⟨tasks2, db.history ++ [snapshotRecord (newHistoryId db) op db.clock tk], c⟩ ∧
    ChangedMono ⟨tasks2, db.history ++ [snapshotRecord (newHistoryId db) op db.clock tk], c⟩ ∧
    ClockAhead ⟨tasks2, db.history ++ [snapshotRecord (newHistoryId db) op db.clock tk], c⟩ := by
  refine ⟨?_, ?_, ?_⟩
  · exact pairwise_append_single h2 fun x hx => hist_id_lt_newHistoryId hx
  · exact pairwise_append_single h3 fun x hx => le_of_lt (h4 x hx)
  · intro r hr
    rcases List.mem_append.mp hr with hr | hr
    · exact lt_trans (h4 r hr) hc
    · rw [List.mem_singleton.mp hr]; exact hc

theorem storeMatches_step (db : DB) (tasks2 : List Task) (op : String) (tk0 : Task)
    (c : Nat) (hop : op ≠ "DELETE") (hS : StoreMatchesLog db)
    (hcover : ∀ tk2 ∈ tasks2,
      (tk2 ∈ db.tasks ∧ tk2.id ≠ tk0.id) ∨
      (tk2.id = tk0.id ∧ tk2.title = tk0.title ∧ tk2.description = tk0.description ∧
       tk2.status = tk0.status ∧ tk2.priority = tk0.priority)) :
    StoreMatchesLog ⟨tasks2, db.history ++ [snapshotRecord (newHistoryId db) op db.clock tk0], c⟩ := by
  intro tk2 htk2
  rcases hcover tk2 htk2 with ⟨hmem, hne⟩ | ⟨hid, ht, hd, hs, hp⟩
  · obtain ⟨r, hr, hrt, hrop, ha1, ha2, ha3, ha4, hmax⟩ := hS tk2 hmem
    refine ⟨r, List.mem_append_left _ hr, hrt, hrop, ha1, ha2, ha3, ha4, ?_⟩
    intro r2 hr2 hrt2
    rcases List.mem_append.mp hr2 with hr2 | hr2
    · exact hmax r2 hr2 hrt2
    · rw [List.mem_singleton.mp hr2] at hrt2
      exact absurd hrt2.symm hne
  · refine ⟨snapshotRecord (newHistoryId db) op db.clock tk0,
      List.mem_append_right _ (List.mem_singleton_self _),
      hid.symm, hop, ht.symm, hd.symm, hs.symm, hp.symm, ?_⟩
    intro r2 hr2 _
    rcases List.mem_append.mp hr2 with hr2 | hr2
    · exact le_of_lt (hist_id_lt_newHistoryId hr2)
    · rw [List.mem_singleton.mp hr2]

theorem inv_add (db : DB) (hI : Inv db) (title description status priority : String) :
    Inv (add_task db title description status priority).2 := by
  obtain ⟨h1, h2, h3, h4, h5⟩ := hI
  obtain ⟨hh1, hh2, hh3⟩ :=
    hist_invs_append db
      (db.tasks ++ [⟨newTaskId db, title, description, status, priority, db.clock, db.clock⟩])
      "INSERT" ⟨newTaskId db, title, description, status, priority, db.clock, db.clock⟩
      (db.clock + 1) (Nat.lt_succ_self _) h2 h3 h4
  refine ⟨?_, hh1, hh2, hh3, ?_⟩
  · show ((db.tasks ++ [(⟨newTaskId db, title, description, status, priority,
      db.clock, db.clock⟩ : Task)]).map Task.id).Nodup
    rw [List.map_append]
    refine List.nodup_append.mpr ⟨h1, List.nodup_singleton _, ?_⟩
    intro x hx hx2
    rcases List.mem_map.mp hx with ⟨tk, htk, rfl⟩
    rw [List.map_singleton, List.mem_singleton] at hx2
    exact absurd (hx2 ▸ task_id_lt_newTaskId htk) (lt_irrefl _)
  · refine storeMatches_step db _ "INSERT" _ (db.clock + 1) (by decide) h5 ?_
    intro tk2 htk2
    rcases List.mem_append.mp htk2 with htk2 | htk2
    · exact Or.inl ⟨htk2, Nat.ne_of_lt (task_id_lt_newTaskId htk2)⟩
    · rw [List.mem_singleton.mp htk2]
      exact Or.inr ⟨rfl, rfl, rfl, rfl, rfl⟩

theorem inv_update (db : DB) (hI : Inv db) (task_id : Nat)
    (title description status priority : Option String) :
    Inv (update_task db task_id title description status priority).2 := by
  cases hfind : db.tasks.find? fun y => y.id == task_id with
  | none =>
    rw [update_task_notfound db task_id title description status priority hfind]
    exact hI
  | some tk =>
    have htk : tk ∈ db.tasks := List.mem_of_find?_eq_some hfind
    have hid : tk.id = task_id := by simpa using List.find?_some hfind
    by_cases hfield : (title.isNone && description.isNone && status.isNone &&
        priority.isNone) = true
    · obtain ⟨⟨⟨ha, hb⟩, hc⟩, hd⟩ := by simpa [Bool.and_eq_true] using hfield
      -- all four fields are `none`: the call is the no-op branch
      rw [ha, hb, hc, hd, update_task_noop db task_id]
      exact hI
    · obtain ⟨h1, h2, h3, h4, h5⟩ := hI
      rw [update_task_step db task_id title description status priority h1 htk hid
        (Bool.eq_false_iff.mpr hfield)]
      obtain ⟨hh1, hh2, hh3⟩ :=
        hist_invs_append db
          (db.tasks.map fun y => if y.id == task_id then
            applyUpdate title description status priority db.clock y else y)
          "UPDATE" (applyUpdate title description status priority db.clock tk)
          (db.clock + 1) (Nat.lt_succ_self _) h2 h3 h4
      refine ⟨?_, hh1, hh2, hh3, ?_⟩
      · show (((db.tasks.map fun y => if y.id == task_id then
          applyUpdate title description status priority db.clock y else y).map Task.id)).Nodup
        rw [map_ite_id db.tasks task_id
          (applyUpdate title description status priority db.clock) fun y => rfl]
        exact h1
      · refine storeMatches_step db _ "UPDATE" _ (db.clock + 1) (by decide) h5 ?_
        intro tk2 htk2
        rcases List.mem_map.mp htk2 with ⟨y, hy, rfl⟩
        by_cases hyid : y.id = task_id
        · have : y = tk := eq_of_mem_id h1 hy htk (hyid.trans hid.symm)
          subst this
          refine Or.inr ?_
          simp [hyid]
        · simp only [beq_eq_false_iff_ne.mpr hyid, if_false]
          exact Or.inl ⟨hy, fun h => hyid (h.trans hid)⟩

theorem inv_delete (db : DB) (hI : Inv db) (task_id : Nat) :
    Inv (delete_task db task_id).2 := by
  cases hfind : db.tasks.find? fun y => y.id == task_id with
  | none =>
    rw [delete_task_notfound db task_id hfind]
    exact hI
  | some tk =>
    have htk : tk ∈ db.tasks := List.mem_of_find?_eq_some hfind
    have hid : tk.id = task_id := by simpa using List.find?_some hfind
    obtain ⟨h1, h2, h3, h4, h5⟩ := hI
    rw [delete_task_step db task_id h1 htk hid]
    obtain ⟨hh1, hh2, hh3⟩ :=
      hist_invs_append db (db.tasks.filter fun y => y.id != task_id)
        "DELETE" tk (db.clock + 1) (Nat.lt_succ_self _) h2 h3 h4
    refine ⟨?_, hh1, hh2, hh3, ?_⟩
    · show (((db.tasks.filter fun y => y.id != task_id)).map Task.id).Nodup
      exact h1.sublist (List.Sublist.map Task.id (List.filter_sublist db.tasks))
    · intro tk2 htk2
      have htk2' := List.mem_filter.mp htk2
      obtain ⟨r, hr, hrt, hrop, ha1, ha2, ha3, ha4, hmax⟩ := h5 tk2 htk2'.1
      refine ⟨r, List.mem_append_left _ hr, hrt, hrop, ha1, ha2, ha3, ha4, ?_⟩
      intro r2 hr2 hrt2
      rcases List.mem_append.mp hr2 with hr2 | hr2
      · exact hmax r2 hr2 hrt2
      · rw [List.mem_singleton.mp hr2] at hrt2
        have : tk2.id ≠ task_id := by simpa using htk2'.2
        exact absurd (hid ▸ hrt2 : task_id = tk2.id).symm this

theorem inv_restore (db : DB) (hI : Inv db) (history_id : Nat) :
    Inv (restore_task_version db history_id).2 := by
  cases hfind : db.history.find? fun s => s.history_id == history_id with
  | none =>
    rw [restore_notfound db history_id hfind]
    exact hI
  | some r =>
    obtain ⟨h1, h2, h3, h4, h5⟩ := hI
    cases habs : db.tasks.find? fun y => y.id == r.task_id with
    | none =>
      rw [restore_absent_step db history_id hfind habs]
      obtain ⟨hh1, hh2, hh3⟩ :=
        hist_invs_append db (db.tasks ++ [restoredTask r db.clock])
          "INSERT" (restoredTask r db.clock) (db.clock + 1) (Nat.lt_succ_self _) h2 h3 h4
      have habs' : ∀ y ∈ db.tasks, y.id ≠ r.task_id := fun y hy =>
        by simpa using List.find?_eq_none.mp habs y hy
      refine ⟨?_, hh1, hh2, hh3, ?_⟩
      · show ((db.tasks ++ [restoredTask r db.clock]).map Task.id).Nodup
        rw [List.map_append]
        refine List.nodup_append.mpr ⟨h1, List.nodup_singleton _, ?_⟩
        intro x hx hx2
        rcases List.mem_map.mp hx with ⟨tk, htk, rfl⟩
        rw [List.map_singleton, List.mem_singleton] at hx2
        exact habs' tk htk hx2
      · refine storeMatches_step db _ "INSERT" _ (db.clock + 1) (by decide) h5 ?_
        intro tk2 htk2
        rcases List.mem_append.mp htk2 with htk2 | htk2
        · exact Or.inl ⟨htk2, habs' tk2 htk2⟩
        · rw [List.mem_singleton.mp htk2]
          exact Or.inr ⟨rfl, rfl, rfl, rfl, rfl⟩
    | some tk =>
      have htk : tk ∈ db.tasks := List.mem_of_find?_eq_some habs
      have hid : tk.id = r.task_id := by simpa using List.find?_some habs
      rw [restore_present_step db history_id hfind h1 htk hid]
      obtain ⟨hh1, hh2, hh3⟩ :=
        hist_invs_append db
          (db.tasks.map fun y => if y.id == r.task_id then restoreOverwrite r db.clock y else y)
          "UPDATE" (restoreOverwrite r db.clock tk) (db.clock + 1) (Nat.lt_succ_self _) h2 h3 h4
      refine ⟨?_, hh1, hh2, hh3, ?_⟩
      · show (((db.tasks.map fun y => if y.id == r.task_id then
          restoreOverwrite r db.clock y else y).map Task.id)).Nodup
        rw [map_ite_id db.tasks r.task_id (restoreOverwrite r db.clock) fun y => rfl]
        exact h1
      · refine storeMatches_step db _ "UPDATE" _ (db.clock + 1) (by decide) h5 ?_
        intro tk2 htk2
        rcases List.mem_map.mp htk2 with ⟨y, hy, rfl⟩
        by_cases hyid : y.id = r.task_id
        · have : y = tk := eq_of_mem_id h1 hy htk (hyid.trans hid.symm)
          subst this
          refine Or.inr ?_
          simp [hyid]
        · simp only [beq_eq_false_iff_ne.mpr hyid, if_false]
          exact Or.inl ⟨hy, fun h => hyid (h.trans hid)⟩

theorem inv_applyOp (db : DB) (hI : Inv db) (op : Op) : Inv (applyOp db op) := by
  cases op with
  | create title description status priority => exact inv_add db hI title description status priority
  | update task_id title description status priority =>
      exact inv_update db hI task_id title description status priority
  | complete task_id => exact inv_update db hI task_id none none (some "completed") none
  | delete task_id => exact inv_delete db hI task_id
  | restore history_id => exact inv_restore db hI history_id
  | listTasks filter_status => exact hI
  | historyOf task_id => exact hI

theorem inv_initDB : Inv initDB := by
  refine ⟨List.nodup_nil, List.Pairwise.nil, List.Pairwise.nil, ?_, ?_⟩
  · intro r hr; cases hr
  · intro tk htk; cases htk

theorem inv_foldl (ops : List Op) : ∀ db : DB, Inv db → Inv (ops.foldl applyOp db) := by
  induction ops with
  | nil => intro db hI; exact hI
  | cons op ops ih => intro db hI; exact ih (applyOp db op) (inv_applyOp db hI op)

theorem inv_run (ops : List Op) : Inv (run ops) := inv_foldl ops initDB inv_initDB

/-! ## Success-case inversion and append-only form of each operation -/

theorem update_task_success_cases (db : DB) (task_id : Nat)
    (title description status priority : Option String)
    (h : (update_task db task_id title description status priority).1 = true) :
    ∃ tk ∈ db.tasks, tk.id = task_id ∧
      (title.isNone && description.isNone && status.isNone && priority.isNone) = false := by
  cases hfind : db.tasks.find? fun y => y.id == task_id with
  | none =>
    rw [update_task_notfound db task_id title description status priority hfind] at h
    cases h
  | some tk =>
    have htk := List.mem_of_find?_eq_some hfind
    have hid : tk.id = task_id := by simpa using List.find?_some hfind
    by_cases hfield : (title.isNone && description.isNone && status.isNone &&
        priority.isNone) = true
    · obtain ⟨⟨⟨ha, hb⟩, hc⟩, hd⟩ := by simpa [Bool.and_eq_true] using hfield
      rw [ha, hb, hc, hd, update_task_noop db task_id] at h
      cases h
    · exact ⟨tk, htk, hid, Bool.eq_false_iff.mpr hfield⟩

theorem delete_task_success_cases (db : DB) (task_id : Nat)
    (h : (delete_task db task_id).1 = true) :
    ∃ tk ∈ db.tasks, tk.id = task_id := by
  cases hfind : db.tasks.find? fun y => y.id == task_id with
  | none => rw [delete_task_notfound db task_id hfind] at h; cases h
  | some tk =>
    exact ⟨tk, List.mem_of_find?_eq_some hfind, by simpa using List.find?_some hfind⟩

theorem applyOp_history_extend (db : DB) (op : Op) :
    ∃ l, (applyOp db op).history = db.history ++ l := by
  cases op with
  | create title description status priority => exact ⟨_, rfl⟩
  | update task_id title description status priority =>
    show ∃ l, (update_task db task_id title description status priority).2.history
      = db.history ++ l
    unfold update_task
    split
    · exact ⟨[], (List.append_nil _).symm⟩
    · split
      · exact ⟨[], (List.append_nil _).symm⟩
      · exact ⟨_, rfl⟩
  | complete task_id =>
    show ∃ l, (update_task db task_id none none (some "completed") none).2.history
      = db.history ++ l
    unfold update_task
    split
    · exact ⟨[], (List.append_nil _).symm⟩
    · split
      · exact ⟨[], (List.append_nil _).symm⟩
      · exact ⟨_, rfl⟩
  | delete task_id =>
    show ∃ l, (delete_task db task_id).2.history = db.history ++ l
    unfold delete_task
    split
    · exact ⟨[], (List.append_nil _).symm⟩
    · exact ⟨_, rfl⟩
  | restore history_id =>
    show ∃ l, (restore_task_version db history_id).2.history = db.history ++ l
    unfold restore_task_version
    split
    · exact ⟨[], (List.append_nil _).symm⟩
    · split
      · exact ⟨_, rfl⟩
      · exact ⟨_, rfl⟩
  | listTasks filter_status => exact ⟨[], (List.append_nil _).symm⟩
  | historyOf task_id => exact ⟨[], (List.append_nil _).symm⟩

theorem foldl_history_extend (more : List Op) :
    ∀ db : DB, ∃ l, (more.foldl applyOp db).history = db.history ++ l := by
  induction more with
  | nil => intro db; exact ⟨[], (List.append_nil _).symm⟩
  | cons op more ih =>
    intro db
    obtain ⟨l1, h1⟩ := applyOp_history_extend db op
    obtain ⟨l2, h2⟩ := ih (applyOp db op)
    exact ⟨l1 ++ l2, by rw [List.foldl_cons, h2, h1, List.append_assoc]⟩

/-! ## Concrete example databases used by the witnesses -/

/-- One task created: `add_task("Buy milk", "2%", priority="high")`. -/
def demoDB : DB := run [Op.create "Buy milk" "2%" "pending" "high"]

/-- A task created and then deleted: its two history records survive it. -/
def demoDeleted : DB := run [Op.create "Buy milk" "2%" "pending" "high", Op.delete 1]

/-- A task created with title "A" and then retitled to "B". -/
def demoUpdated : DB :=
  run [Op.create "A" "d" "pending" "medium", Op.update 1 (some "B") none none none]

/-! ## The claims -/

/-- C1: every successful create, update, or delete appends exactly one new
history record in the same transaction, with snapshot fields equal to the
task's state in the store right after the operation (for a delete, its
state right before removal), tagged INSERT, UPDATE, or DELETE
respectively. -/
theorem C1_append_on_mutate :
    (∀ (db : DB) (title description status priority : String),
      ∃ rec, (add_task db title description status priority).2.history
          = db.history ++ [rec] ∧
        rec.operation = "INSERT" ∧
        ∃ tk ∈ (add_task db title description status priority).2.tasks,
          tk.id = (add_task db title description status priority).1 ∧
          rec.task_id = tk.id ∧ rec.title = tk.title ∧
          rec.description = tk.description ∧ rec.status = tk.status ∧
          rec.priority = tk.priority) ∧
    (∀ (db : DB) (task_id : Nat) (title description status priority : Option String),
      TaskIdsNodup db →
      (update_task db task_id title description status priority).1 = true →
      ∃ rec, (update_task db task_id title description status priority).2.history
          = db.history ++ [rec] ∧
        rec.operation = "UPDATE" ∧
        ∃ tk ∈ (update_task db task_id title description status priority).2.tasks,
          tk.id = task_id ∧ rec.task_id = tk.id ∧ rec.title = tk.title ∧
          rec.description = tk.description ∧ rec.status = tk.status ∧
          rec.priority = tk.priority) ∧
    (∀ (db : DB) (task_id : Nat),
      TaskIdsNodup db → (delete_task db task_id).1 = true →
      ∃ rec, (delete_task db task_id).2.history = db.history ++ [rec] ∧
        rec.operation = "DELETE" ∧
        ∃ tk ∈ db.tasks, tk.id = task_id ∧ rec.task_id = tk.id ∧
          rec.title = tk.title ∧ rec.description = tk.description ∧
          rec.status = tk.status ∧ rec.priority = tk.priority) := by
  refine ⟨?_, ?_, ?_⟩
  · intro db title description status priority
    exact ⟨_, rfl, rfl,
      ⟨newTaskId db, title, description, status, priority, db.clock, db.clock⟩,
      List.mem_append_right _ (List.mem_singleton_self _),
      rfl, rfl, rfl, rfl, rfl, rfl⟩
  · intro db task_id title description status priority hn hsucc
    obtain ⟨tk, htk, hid, hfield⟩ :=
      update_task_success_cases db task_id title description status priority hsucc
    rw [update_task_step db task_id title description status priority hn htk hid hfield]
    refine ⟨_, rfl, rfl,
      applyUpdate title description status priority db.clock tk, ?_,
      hid, rfl, rfl, rfl, rfl, rfl⟩
    have : (if tk.id == task_id then
        applyUpdate title description status priority db.clock tk else tk)
        = applyUpdate title description status priority db.clock tk := by simp [hid]
    exact this ▸ List.mem_map_of_mem _ htk
  · intro db task_id hn hsucc
    obtain ⟨tk, htk, hid⟩ := delete_task_success_cases db task_id hsucc
    rw [delete_task_step db task_id hn htk hid]
    exact ⟨_, rfl, rfl, tk, htk, hid, rfl, rfl, rfl, rfl, rfl⟩

/-- Witness for C1: concrete create, update, and delete calls on the one-task
database, each appending one record with the right tag. -/
theorem C1_append_on_mutate_witness :
    (∃ rec, (add_task demoDB "Chores" "" "pending" "medium").2.history
        = demoDB.history ++ [rec] ∧ rec.operation = "INSERT") ∧
    (∃ rec, (update_task demoDB 1 (some "Buy oat milk") none none none).2.history
        = demoDB.history ++ [rec] ∧ rec.operation = "UPDATE") ∧
    (∃ rec, (delete_task demoDB 1).2.history = demoDB.history ++ [rec] ∧
        rec.operation = "DELETE") := by
  refine ⟨?_, ?_, ?_⟩
  · obtain ⟨rec, hh, hop, -⟩ :=
      C1_append_on_mutate.1 demoDB "Chores" "" "pending" "medium"
    exact ⟨rec, hh, hop⟩
  · obtain ⟨rec, hh, hop, -⟩ := C1_append_on_mutate.2.1 demoDB 1
      (some "Buy oat milk") none none none
      (by decide : ((demoDB.tasks.map Task.id)).Nodup) (by decide)
    exact ⟨rec, hh, hop⟩
  · obtain ⟨rec, hh, hop, -⟩ := C1_append_on_mutate.2.2 demoDB 1
      (by decide : ((demoDB.tasks.map Task.id)).Nodup) (by decide)
    exact ⟨rec, hh, hop⟩

/-- C2: after any sequence of operations, every live task's four mutable
fields equal the snapshot of the history record with the greatest
`history_id` among those carrying its `task_id`, and that record's
operation is not DELETE. -/
theorem C2_store_matches_latest (ops : List Op) : StoreMatchesLog (run ops) :=
  (inv_run ops).2.2.2.2

/-- Witness for C2 on a concrete two-operation sequence. -/
theorem C2_store_matches_latest_witness :
    StoreMatchesLog (run [Op.create "Buy milk" "2%" "pending" "high", Op.complete 1]) :=
  C2_store_matches_latest [Op.create "Buy milk" "2%" "pending" "high", Op.complete 1]

/-- C3 as stated is false on the code: `add_task` performs no title
validation, so a create with an empty title succeeds, inserts the task,
and appends a history record. -/
theorem C3_counterexample :
    (add_task initDB "" "shop" "pending" "medium").2.tasks ≠ [] ∧
    (∃ tk ∈ (add_task initDB "" "shop" "pending" "medium").2.tasks,
      tk.id = (add_task initDB "" "shop" "pending" "medium").1 ∧ tk.title = "") ∧
    (add_task initDB "" "shop" "pending" "medium").2.history.length
      = initDB.history.length + 1 := by
  decide

/-- C3 amended: create never validates the title; a call with an empty
title succeeds like any other, inserting the task (with empty title) and
appending exactly one INSERT history record. -/
theorem C3_amended_no_validation (db : DB) (description status priority : String) :
    ∃ rec, (add_task db "" description status priority).2.history
        = db.history ++ [rec] ∧
      rec.operation = "INSERT" ∧
      ∃ tk ∈ (add_task db "" description status priority).2.tasks,
        tk.id = (add_task db "" description status priority).1 ∧ tk.title = "" ∧
        rec.task_id = tk.id ∧ rec.title = tk.title :=
  ⟨_, rfl, rfl,
    ⟨newTaskId db, "", description, status, priority, db.clock, db.clock⟩,
    List.mem_append_right _ (List.mem_singleton_self _),
    rfl, rfl, rfl, rfl⟩

/-- C4: restoring a history record whose task is absent recreates the task
under exactly its original id, with the record's snapshot fields and fresh
`created_at`/`updated_at`, appends a new history record, and afterwards a
lookup of that id succeeds. -/
theorem C4_restore_resurrection (db : DB) (history_id : Nat) (r : HistoryRecord)
    (hfind : (db.history.find? fun s => s.history_id == history_id) = some r)
    (habs : (db.tasks.find? fun y => y.id == r.task_id) = none) :
    (restore_task_version db history_id).1 = true ∧
    (restore_task_version db history_id).2.tasks
      = db.tasks ++ [restoredTask r db.clock] ∧
    (restoredTask r db.clock).id = r.task_id ∧
    (restoredTask r db.clock).title = r.title ∧
    (restoredTask r db.clock).description = r.description ∧
    (restoredTask r db.clock).status = r.status ∧
    (restoredTask r db.clock).priority = r.priority ∧
    (restoredTask r db.clock).created_at = db.clock ∧
    (restoredTask r db.clock).updated_at = db.clock ∧
    (∃ rec, (restore_task_version db history_id).2.history = db.history ++ [rec]) ∧
    ((restore_task_version db history_id).2.tasks.find?
        fun y => y.id == r.task_id) = some (restoredTask r db.clock) := by
  rw [restore_absent_step db history_id hfind habs]
  refine ⟨rfl, rfl, rfl, rfl, rfl, rfl, rfl, rfl, rfl, ⟨_, rfl⟩, ?_⟩
  show ((db.tasks ++ [restoredTask r db.clock]).find? fun y => y.id == r.task_id)
    = some (restoredTask r db.clock)
  rw [List.find?_append, habs]
  simp [restoredTask]

/-- Witness for C4: restore the INSERT record of the created-then-deleted
task; the lookup of id 1 succeeds afterwards. -/
theorem C4_restore_resurrection_witness :
    (restore_task_version demoDeleted 1).1 = true ∧
    ((restore_task_version demoDeleted 1).2.tasks.find? fun y => y.id == (1 : Nat))
      = some (restoredTask ⟨1, 1, "Buy milk", "2%", "pending", "high", "INSERT", 0⟩
          demoDeleted.clock) := by
  obtain ⟨h1, -, -, -, -, -, -, -, -, -, hfound⟩ :=
    C4_restore_resurrection demoDeleted 1
      ⟨1, 1, "Buy milk", "2%", "pending", "high", "INSERT", 0⟩ (by decide) (by decide)
  exact ⟨h1, hfound⟩

/-- C5: restoring a history record whose task is live overwrites its four
mutable fields with the snapshot, refreshes `updated_at`, keeps
`created_at`, and appends exactly one UPDATE history record; the log grows
by one and no existing record is changed or removed. -/
theorem C5_restore_in_place (db : DB) (history_id : Nat) (r : HistoryRecord)
    (hn : TaskIdsNodup db)
    (hfind : (db.history.find? fun s => s.history_id == history_id) = some r)
    (tk : Task) (htk : tk ∈ db.tasks) (hid : tk.id = r.task_id) :
    (restore_task_version db history_id).1 = true ∧
    (∃ rec, (restore_task_version db history_id).2.history = db.history ++ [rec] ∧
      rec.operation = "UPDATE" ∧ rec.task_id = r.task_id ∧ rec.title = r.title ∧
      rec.description = r.description ∧ rec.status = r.status ∧
      rec.priority = r.priority) ∧
    (restore_task_version db history_id).2.history.length = db.history.length + 1 ∧
    (∃ tk2 ∈ (restore_task_version db history_id).2.tasks,
      tk2.id = r.task_id ∧ tk2.title = r.title ∧ tk2.description = r.description ∧
      tk2.status = r.status ∧ tk2.priority = r.priority ∧
      tk2.updated_at = db.clock ∧ tk2.created_at = tk.created_at) := by
  rw [restore_present_step db history_id hfind hn htk hid]
  refine ⟨rfl, ⟨_, rfl, rfl, hid, rfl, rfl, rfl, rfl⟩, by simp, ?_⟩
  refine ⟨restoreOverwrite r db.clock tk, ?_, hid, rfl, rfl, rfl, rfl, rfl, rfl⟩
  have : (if tk.id == r.task_id then restoreOverwrite r db.clock tk else tk)
      = restoreOverwrite r db.clock tk := by simp [hid]
  exact this ▸ List.mem_map_of_mem _ htk

/-- Witness for C5: restoring the INSERT record of the retitled task flips
its title back while the log grows from 2 to 3 records. -/
theorem C5_restore_in_place_witness :
    (restore_task_version demoUpdated 1).1 = true ∧
    (restore_task_version demoUpdated 1).2.history.length
      = demoUpdated.history.length + 1 := by
  obtain ⟨h1, -, hlen, -⟩ :=
    C5_restore_in_place demoUpdated 1
      ⟨1, 1, "A", "d", "pending", "medium", "INSERT", 0⟩
      (by decide : ((demoUpdated.tasks.map Task.id)).Nodup) (by decide)
      ⟨1, "B", "d", "pending", "medium", 0, 1⟩ (by decide) (by decide)
  exact ⟨h1, hlen⟩

/-- C6: no operation removes or mutates an existing history record: every
step leaves the old log as a prefix, so across any sequence of operations
the log length is monotonically non-decreasing (deletes included). -/
theorem C6_log_append_only :
    (∀ (db : DB) (op : Op), ∃ l, (applyOp db op).history = db.history ++ l) ∧
    (∀ (ops more : List Op),
      ∃ l, (run (ops ++ more)).history = (run ops).history ++ l) ∧
    (∀ (db : DB) (op : Op), db.history.length ≤ (applyOp db op).history.length) := by
  refine ⟨applyOp_history_extend, ?_, ?_⟩
  · intro ops more
    obtain ⟨l, hl⟩ := foldl_history_extend more (run ops)
    exact ⟨l, by rw [run, List.foldl_append]; exact hl⟩
  · intro db op
    obtain ⟨l, hl⟩ := applyOp_history_extend db op
    rw [hl, List.length_append]
    exact Nat.le_add_right _ _

/-- C7: update fails and changes nothing when the id is absent; when the
task exists but no field is supplied it fails as a no-op, appending
nothing; otherwise it succeeds, applies exactly the supplied fields,
refreshes `updated_at`, and appends one UPDATE record carrying the full
post-update snapshot. -/
theorem C7_update_contract :
    (∀ (db : DB) (task_id : Nat) (title description status priority : Option String),
      (db.tasks.find? fun y => y.id == task_id) = none →
      update_task db task_id title description status priority = (false, db)) ∧
    (∀ (db : DB) (task_id : Nat),
      update_task db task_id none none none none = (false, db)) ∧
    (∀ (db : DB) (task_id : Nat) (title description status priority : Option String)
      (tk : Task), TaskIdsNodup db → tk ∈ db.tasks → tk.id = task_id →
      (title.isNone && description.isNone && status.isNone && priority.isNone)
        = false →
      (update_task db task_id title description status priority).1 = true ∧
      (update_task db task_id title description status priority).2.history
        = db.history ++ [snapshotRecord (newHistoryId db) "UPDATE" db.clock
            (applyUpdate title description status priority db.clock tk)] ∧
      (update_task db task_id title description status priority).2.tasks
        = (db.tasks.map fun y => if y.id == task_id then
            applyUpdate title description status priority db.clock y else y) ∧
      (applyUpdate title description status priority db.clock tk).title
        = title.getD tk.title ∧
      (applyUpdate title description status priority db.clock tk).description
        = description.getD tk.description ∧
      (applyUpdate title description status priority db.clock tk).status
        = status.getD tk.status ∧
      (applyUpdate title description status priority db.clock tk).priority
        = priority.getD tk.priority ∧
      (applyUpdate title description status priority db.clock tk).updated_at
        = db.clock ∧
      (applyUpdate title description status priority db.clock tk).created_at
        = tk.created_at) := by
  refine ⟨update_task_notfound, update_task_noop, ?_⟩
  intro db task_id title description status priority tk hn htk hid hfield
  rw [update_task_step db task_id title description status priority hn htk hid hfield]
  exact ⟨rfl, rfl, rfl, rfl, rfl, rfl, rfl, rfl, rfl⟩

/-- Witness for C7: a missing id, a zero-field call, and a proper
single-field update on the one-task database. -/
theorem C7_update_contract_witness :
    (update_task initDB 7 (some "x") none none none = (false, initDB)) ∧
    (update_task demoDB 1 none none none none = (false, demoDB)) ∧
    (update_task demoDB 1 none none (some "completed") none).1 = true := by
  refine ⟨C7_update_contract.1 initDB 7 (some "x") none none none (by decide),
    C7_update_contract.2.1 demoDB 1, ?_⟩
  exact (C7_update_contract.2.2 demoDB 1 none none (some "completed") none
    ⟨1, "Buy milk", "2%", "pending", "high", 0, 0⟩
    (by decide : ((demoDB.tasks.map Task.id)).Nodup)
    (by decide) (by decide) (by decide)).1

/-- C8: for every reachable state, `get_task_history` returns exactly the
records carrying the requested task id, in non-decreasing `changed_at` and
strictly ascending `history_id` (append) order. -/
theorem C8_history_ordering (ops : List Op) (task_id : Nat) :
    get_task_history (run ops) task_id
      = (run ops).history.filter (fun r => r.task_id == task_id) ∧
    (get_task_history (run ops) task_id).Pairwise
      (fun a b => a.changed_at ≤ b.changed_at) ∧
    (get_task_history (run ops) task_id).Pairwise
      (fun a b => a.history_id < b.history_id) := by
  have hincr : (run ops).history.Pairwise (fun a b => a.history_id < b.history_id) :=
    (inv_run ops).2.1
  have hmono0 : (run ops).history.Pairwise (fun a b => a.changed_at ≤ b.changed_at) :=
    (inv_run ops).2.2.1
  have hmono : ((run ops).history.filter fun r => r.task_id == task_id).Pairwise
      (fun a b => a.changed_at ≤ b.changed_at) :=
    hmono0.sublist (List.filter_sublist _)
  have heq : get_task_history (run ops) task_id
      = (run ops).history.filter fun r => r.task_id == task_id :=
    List.Sorted.insertionSort_eq hmono
  exact ⟨heq, heq ▸ hmono, heq ▸ hincr.sublist (List.filter_sublist _)⟩

/-- C9: restoring a nonexistent `history_id` fails and leaves the whole
state (entity store and history log) unchanged. -/
theorem C9_restore_notfound (db : DB) (history_id : Nat)
    (h : (db.history.find? fun s => s.history_id == history_id) = none) :
    restore_task_version db history_id = (false, db) :=
  restore_notfound db history_id h

/-- Witness for C9 on the empty database. -/
theorem C9_restore_notfound_witness : restore_task_version initDB 5 = (false, initDB) :=
  C9_restore_notfound initDB 5 (by decide)

/-- C10: when restore recreates an absent task, the history record it
appends is tagged INSERT (the INSERT trigger fires on the re-insertion),
resolving the spec's open question. -/
theorem C10_resurrection_tagged_insert (db : DB) (history_id : Nat) (r : HistoryRecord)
    (hfind : (db.history.find? fun s => s.history_id == history_id) = some r)
    (habs : (db.tasks.find? fun y => y.id == r.task_id) = none) :
    ∃ rec, (restore_task_version db history_id).2.history = db.history ++ [rec] ∧
      rec.operation = "INSERT" := by
  rw [restore_absent_step db history_id hfind habs]
  exact ⟨_, rfl, rfl⟩

/-- Witness for C10: the resurrection of the deleted task logs INSERT. -/
theorem C10_resurrection_tagged_insert_witness :
    ∃ rec, (restore_task_version demoDeleted 1).2.history
        = demoDeleted.history ++ [rec] ∧ rec.operation = "INSERT" :=
  C10_resurrection_tagged_insert demoDeleted 1
    ⟨1, 1, "Buy milk", "2%", "pending", "high", "INSERT", 0⟩ (by decide) (by decide)

end CliToolsBC
